import Mathlib

/-!
Verification development for the colab-vscode authentication core.

The definitions below are shallow embeddings of the TypeScript sources:

* `src/common/toggleable.ts` — the `AsyncToggle` lifecycle primitive
  (state, the synchronous prefix of `toggle`, and the continuation that
  runs when the awaited `turnOn`/`turnOff` promise settles);
* `src/auth/flows/loopback.ts` — `LocalServerFlow.trigger` and the
  request `Handler`;
* components whose implementation files are not part of the source tree
  (only their tests are) are modelled from the specification, and each
  such definition's doc comment says so.

Machine-level effects (logging payloads, HTTP socket plumbing) are
recorded as data in explicit state records so that the theorems can
speak about them.
-/

namespace ColabVSCode

/- ### URL / query-string helpers

`loopback.ts` parses requests with the WHATWG `URL` / `URLSearchParams`
APIs.  The fragment of their behaviour exercised by the handler is:
split the URL at the first `?`, split the query on `&`, split each
piece at the first `=`, percent-decode keys and values (`+` decodes to
a space), skip empty pieces, and `get` returns the first match. -/

def hexVal (c : Char) : Option Nat :=
  if '0' ≤ c ∧ c ≤ '9' then some (c.toNat - '0'.toNat)
  else if 'a' ≤ c ∧ c ≤ 'f' then some (c.toNat - 'a'.toNat + 10)
  else if 'A' ≤ c ∧ c ≤ 'F' then some (c.toNat - 'A'.toNat + 10)
  else none

def percentDecodeChars : List Char → List Char
  | [] => []
  | '%' :: a :: b :: rest =>
    match hexVal a, hexVal b with
    | some ha, some hb => Char.ofNat (ha * 16 + hb) :: percentDecodeChars rest
    | _, _ => '%' :: percentDecodeChars (a :: b :: rest)
  | '+' :: rest => ' ' :: percentDecodeChars rest
  | c :: rest => c :: percentDecodeChars rest

def percentDecode (s : String) : String :=
  String.mk (percentDecodeChars s.data)

/-- Split a character list at the first occurrence of `sep`; the
separator itself is dropped.  Returns `none` for the second component
when `sep` does not occur. -/
def splitAtFirst (sep : Char) : List Char → List Char × Option (List Char)
  | [] => ([], none)
  | c :: rest =>
    if c = sep then ([], some rest)
    else
      let r := splitAtFirst sep rest
      (c :: r.1, r.2)

/-- `URLSearchParams` parsing of one `key=value` piece. -/
def parsePiece (piece : List Char) : String × String :=
  let r := splitAtFirst '=' piece
  (percentDecode (String.mk r.1), percentDecode (String.mk (r.2.getD [])))

/-- Split on `&` (accumulator-passing, structural recursion). -/
def splitAmpAux (acc : List Char) : List Char → List (List Char)
  | [] => [acc.reverse]
  | c :: rest =>
    if c = '&' then acc.reverse :: splitAmpAux [] rest
    else splitAmpAux (c :: acc) rest

def splitAmp (cs : List Char) : List (List Char) :=
  splitAmpAux [] cs

def parseQueryPairs (q : String) : List (String × String) :=
  let cs := match q.data with
    | '?' :: rest => rest
    | cs => cs
  ((splitAmp cs).filter (fun p => ¬ p.isEmpty)).map parsePiece

/-- `URLSearchParams.get`: first value for the key, or null. -/
def queryGet (pairs : List (String × String)) (key : String) : Option String :=
  (pairs.find? (fun p => p.1 = key)).map (fun p => p.2)

/-- JS falsiness for a `string | null` value: `null` and `""` are falsy. -/
def strFalsy : Option String → Bool
  | none => true
  | some s => s = ""

/- ### AsyncToggle — `src/common/toggleable.ts`

`AsyncToggle` is single-threaded and event-loop cooperative: a call to
`on()`/`off()` runs `toggle(to)` synchronously up to the
`await this.turnOn/turnOff(ctrl.signal)` suspension point
(`toggleStart` below), and the rest of `toggle` — the success check,
the catch clause and the finally clause — runs when that promise
settles (`toggleFinish` below).  `AbortController`s are identified by
the order of their creation; `abort(cause)` calls, `turnOn`/`turnOff`
invocations and log lines are recorded in the state so the theorems
can count and inspect them. -/

inductive ToggleDirection
  | on
  | off
deriving DecidableEq, Repr

def dirStr : ToggleDirection → String
  | .on => "on"
  | .off => "off"

/-- `ToggleAbortedError` from `toggleable.ts`: the cause passed to
`AbortController.abort` when a transition is superseded. -/
structure ToggleAbortedError where
  fromDir : ToggleDirection
  toDir : ToggleDirection
deriving DecidableEq, Repr

def ToggleAbortedError.message (e : ToggleAbortedError) : String :=
  "Toggling from " ++ dirStr e.fromDir ++ " superseded by toggle to " ++ dirStr e.toDir

/-- One log call: level, message, and the optional error object passed
as second argument to `log.trace` / `log.error`. -/
inductive LogEntry
  | trace (msg : String) (err : Option String)
  | error (msg : String) (err : Option String)
deriving DecidableEq, Repr

structure AsyncToggleState where
  /-- Fresh id for the next `new AbortController()`. -/
  nextCtrl : Nat := 0
  /-- `private inFlight?: { ctrl: AbortController; to: ToggleDirection }`. -/
  inFlight : Option (Nat × ToggleDirection) := none
  /-- Recorded `ctrl.abort(cause)` calls (controller id, cause). -/
  aborts : List (Nat × ToggleAbortedError) := []
  /-- Recorded invocations of the abstract `turnOn`/`turnOff`
  (direction, id of the controller whose signal was passed). -/
  invocations : List (ToggleDirection × Nat) := []
  logs : List LogEntry := []
deriving DecidableEq, Repr

def asyncToggleInit : AsyncToggleState := {}

/-- `signal.aborted` for the controller `ctrl`. -/
def signalAborted (s : AsyncToggleState) (ctrl : Nat) : Bool :=
  s.aborts.any (fun a => a.1 = ctrl)

/-- `private hasActiveControl(ctrl)`: `this.inFlight?.ctrl === ctrl`. -/
def hasActiveControl (s : AsyncToggleState) (ctrl : Nat) : Bool :=
  match s.inFlight with
  | some fl => fl.1 = ctrl
  | none => false

/-- The synchronous prefix of `toggle(to)`: the early return when a
transition in the same direction is in flight, the abort of an
opposite-direction transition, the creation of the fresh controller,
the assignment of `this.inFlight`, and the invocation of
`turnOn`/`turnOff` with the fresh signal.  Returns the new state and
the fresh controller id (`none` when the call was the same-direction
no-op). -/
def toggleStart (s : AsyncToggleState) (dir : ToggleDirection) :
    AsyncToggleState × Option Nat :=
  let afterAbort : AsyncToggleState :=
    match s.inFlight with
    | some fl =>
      if fl.2 = dir then s
      else { s with aborts := s.aborts ++ [(fl.1, ⟨fl.2, dir⟩)] }
    | none => s
  match s.inFlight with
  | some fl =>
    if fl.2 = dir then
      -- Already toggling in that direction.
      (s, none)
    else
      let ctrl := afterAbort.nextCtrl
      ({ afterAbort with
          nextCtrl := ctrl + 1,
          inFlight := some (ctrl, dir),
          invocations := afterAbort.invocations ++ [(dir, ctrl)] },
        some ctrl)
  | none =>
    let ctrl := s.nextCtrl
    ({ s with
        nextCtrl := ctrl + 1,
        inFlight := some (ctrl, dir),
        invocations := s.invocations ++ [(dir, ctrl)] },
      some ctrl)

/-- Settlement of the awaited `turnOn`/`turnOff` promise. -/
inductive TurnOutcome
  | success
  | failure (err : String)
deriving DecidableEq, Repr

/-- The continuation of `toggle(to)` after `await` settles: the
supersession check on success, the catch clause (abort-swallow vs
error-log-and-rethrow) and the finally clause (clear `inFlight` only
when this controller still has active control).  The boolean result
records whether the error was re-thrown to the fire-and-forget
caller. -/
def toggleFinish (s : AsyncToggleState) (ctrl : Nat) (dir : ToggleDirection)
    (outcome : TurnOutcome) : AsyncToggleState × Bool :=
  let body : AsyncToggleState × Bool :=
    match outcome with
    | .success =>
      if hasActiveControl s ctrl then
        ({ s with logs := s.logs ++
            [.trace ("Async toggle to " ++ dirStr dir ++ " completed successfully.") none] },
          false)
      else
        ({ s with logs := s.logs ++
            [.trace ("Completed toggle to " ++ dirStr dir ++ " but a new one superseded it.") none] },
          false)
    | .failure err =>
      if signalAborted s ctrl then
        ({ s with logs := s.logs ++ [.trace "Async toggle aborted." (some err)] }, false)
      else
        ({ s with logs := s.logs ++
            [.error ("Async toggle to " ++ dirStr dir ++ " failed unexpectedly.") (some err)] },
          true)
  let s1 := body.1
  (if hasActiveControl s1 ctrl then { s1 with inFlight := none } else s1, body.2)

/- ### Loopback request handler — `Handler` in `src/auth/flows/loopback.ts` -/

/-- The fields of `http.IncomingMessage` the handler reads.  `url` and
the `Host` header are optional because malformed requests can omit
them (the handler asserts on that). -/
structure HttpRequest where
  method : String
  url : Option String
  host : Option String
deriving DecidableEq, Repr

/-- The response written by the handler, as observable writeHead/end
effects. -/
inductive LoopbackResponse
  /-- `writeHead(405, Allow GET); end("Method Not Allowed")`. -/
  | methodNotAllowed
  /-- `writeHead(302, Location); end()` from `redirectSuccessfulAuth`. -/
  | redirect (location : String)
  /-- `sendFile` of a static asset under the serve root. -/
  | asset (path : String)
  /-- `writeHead(404); end("Not Found")`. -/
  | notFound
deriving DecidableEq, Repr

/-- Everything one `handleRequest` call does.

`rejectCalls` is the channel a handler would use to fail (reject) the
in-flight code-wait in the `CodeManager`; `Handler.handleRequest` in
the source never performs such a call — the field exists so the spec's
claim about failing the code-wait is expressible — and is therefore
empty in every result below. -/
structure HandlerResult where
  /-- Failed `assert(...)` (missing url/host): fatal local error. -/
  fatal : Option String := none
  /-- `throw new Error(msg)` escaping `handleRequest` itself. -/
  thrown : Option String := none
  /-- `codeProvider.resolveCode(nonce, code)` calls. -/
  resolveCalls : List (String × String) := []
  /-- Rejections of the pending code-wait (never produced; see above). -/
  rejectCalls : List String := []
  response : Option LoopbackResponse := none
deriving DecidableEq, Repr

/-- `encodeURIComponent`, applied byte-wise to the UTF-8 encoding;
unreserved characters (`A–Z a–z 0–9 - _ . ! ~ * ' ( )`) pass through,
everything else becomes `%XX` with upper-case hex. -/
def hexDigitUpper (n : Nat) : Char :=
  if n < 10 then Char.ofNat ('0'.toNat + n)
  else Char.ofNat ('A'.toNat + (n - 10))

def uriUnreservedByte (b : Nat) : Bool :=
  (65 ≤ b ∧ b ≤ 90) ∨ (97 ≤ b ∧ b ≤ 122) ∨ (48 ≤ b ∧ b ≤ 57) ∨
    b = 45 ∨ b = 95 ∨ b = 46 ∨ b = 33 ∨ b = 126 ∨ b = 42 ∨
    b = 39 ∨ b = 40 ∨ b = 41

def encodeURIComponent (s : String) : String :=
  String.mk (s.toUTF8.toList.foldr
    (fun b acc =>
      let n := b.toNat
      if uriUnreservedByte n then Char.ofNat n :: acc
      else '%' :: hexDigitUpper (n / 16) :: hexDigitUpper (n % 16) :: acc)
    [])

/-- The `Location` built by `Handler.redirectSuccessfulAuth`:
`CONFIG.ColabApiDomain + "/vscode/auth-success?state=" +
encodeURIComponent(externally resolved success URI)`. -/
def redirectLocation (apiDomain extSuccessUri : String) : String :=
  apiDomain ++ "/vscode/auth-success?state=" ++ encodeURIComponent extSuccessUri

/-- `Handler.handleRequest` from `loopback.ts`, together with the
follow-on `redirectSuccessfulAuth` (whose awaited
`vs.env.asExternalUri` result is the parameter `extSuccessUri`, and
whose `res.headersSent` guard is false in this single-request
model). -/
def handleRequest (apiDomain serveRoot extSuccessUri : String)
    (req : HttpRequest) : HandlerResult :=
  if strFalsy req.url then { fatal := some "req.url" }
  else if strFalsy req.host then { fatal := some "req.headers.host" }
  else
    let u := req.url.getD ""
    if req.method ≠ "GET" then { response := some .methodNotAllowed }
    else
      let split := splitAtFirst '?' u.data
      let pathname := String.mk split.1
      let query := parseQueryPairs (String.mk (split.2.getD []))
      if pathname = "/" then
        let state := queryGet query "state"
        if strFalsy state then
          { thrown := some "Missing state in redirect URL" }
        else
          let parsedState := parseQueryPairs (state.getD "")
          let nonce := queryGet parsedState "nonce"
          let code := queryGet query "code"
          if strFalsy nonce ∨ strFalsy code then
            { thrown := some "Missing nonce or code in redirect URI" }
          else
            { resolveCalls := [(nonce.getD "", code.getD "")],
              response := some (.redirect (redirectLocation apiDomain extSuccessUri)) }
      else if pathname = "/favicon.ico" then
        { response := some (.asset (serveRoot ++ "/favicon.ico")) }
      else
        { response := some .notFound }

/- ### Code-wait — `CodeManager.waitForCode` -/

/-- Modelled from the spec: the fixed code-wait timeout of
`CodeManager.waitForCode` (`src/auth/code-manager.ts` is not in the
source tree; only its callers and the spec describe it): 60 seconds. -/
def CODE_TIMEOUT_MS : Nat := 60000

/-- How a registered code-wait terminates. -/
inductive WaitResult
  | gotCode (code : String)
  | cancelled
  | timedOut
deriving DecidableEq, Repr

def WaitResult.isCode : WaitResult → Bool
  | .gotCode _ => true
  | _ => false

/-- Modelled from the spec: the race inside `CodeManager.waitForCode`
(`src/auth/code-manager.ts` is not in the source tree).  The waiter
resolves with the code if a matching `resolveCode` arrives before the
cancellation signal and before the fixed timeout; it rejects with a
cancellation if the signal fires before the code and before the
timeout; otherwise it rejects with the timeout after
`CODE_TIMEOUT_MS`.  `codeArrival`/`cancelAt` give each event's time in
milliseconds (`none` = never). -/
def waitForCodeOutcome :
    Option (Nat × String) → Option Nat → WaitResult
  | some (t, c), some tc =>
    if t < tc ∧ t < CODE_TIMEOUT_MS then .gotCode c
    else if tc ≤ t ∧ tc < CODE_TIMEOUT_MS then .cancelled
    else .timedOut
  | some (t, c), none => if t < CODE_TIMEOUT_MS then .gotCode c else .timedOut
  | none, some tc => if tc < CODE_TIMEOUT_MS then .cancelled else .timedOut
  | none, none => .timedOut

/- ### LocalServerFlow.trigger — `src/auth/flows/loopback.ts` -/

/-- The `FlowResult` a successful `trigger` resolves with (the
`dispose` member of the TypeScript interface is the server lifecycle
tracked separately in `FlowState`). -/
structure FlowResult where
  code : String
  redirectUri : String
deriving DecidableEq, Repr

/-- The authorization-URL parameters `LocalServerFlow.trigger` passes
to `oAuth2Client.generateAuthUrl` on top of `DEFAULT_AUTH_URL_OPTS`
(the fixed defaults — `response_type`, `prompt`, client id,
`code_challenge_method` — live in `flows.ts`, which is not in the
source tree, and are not needed by any claim). -/
structure AuthUrlParams where
  redirectUri : String
  state : String
  scope : List String
  codeChallenge : String
deriving DecidableEq, Repr

/-- The server-ownership state of one `LocalServerFlow`:
`activeServers` is the `Set` field of the class, `disposed` records
`LoopbackServer.dispose` calls, `opened` records
`vs.env.openExternal` calls, and `nextServer` numbers the
`new LoopbackServer(...)` allocations in order. -/
structure FlowState where
  nextServer : Nat := 0
  activeServers : List Nat := []
  disposed : List Nat := []
  opened : List AuthUrlParams := []
deriving DecidableEq, Repr

def flowInit : FlowState := {}

/-- The per-call environment of a `trigger` invocation: the trigger
options, the port the OS assigns to the fresh server, whether the
awaited `openExternal` resolves, and how the code-wait terminates. -/
structure TriggerEnv where
  nonce : String
  scopes : List String
  pkceChallenge : String
  port : Nat
  openExternalOk : Bool
  wait : WaitResult
deriving DecidableEq, Repr

inductive TriggerResult
  | ok (r : FlowResult)
  | rejected (err : String)
deriving DecidableEq, Repr

def TriggerResult.isRejected : TriggerResult → Bool
  | .rejected _ => true
  | .ok _ => false

/-- The catch clause of `trigger`: `server.dispose()` and
`this.activeServers.delete(server)` (on cancellation the
`onCancellationRequested` callback has already disposed the server;
`dispose` is idempotent, so the observable effect is the same single
disposal). -/
def triggerCatch (fs : FlowState) (server : Nat) : FlowState :=
  { fs with
      disposed := fs.disposed ++ [server],
      activeServers := fs.activeServers.filter (fun s => s ≠ server) }

/-- `LocalServerFlow.trigger`: allocate a fresh `LoopbackServer`, add
it to `activeServers`, register the code-wait and the
cancellation-disposal hook, start the server on an OS-assigned port,
build the authorization URL with `redirect_uri` equal to
`http://127.0.0.1:<port>` and `state` equal to `nonce=<nonce>`, open
it externally, and await the code; any rejection runs the catch
clause and re-throws. -/
def triggerAddress (env : TriggerEnv) : String :=
  "http://127.0.0.1:" ++ toString env.port

/-- The `generateAuthUrl` argument built inside `trigger`. -/
def triggerAuthParams (env : TriggerEnv) : AuthUrlParams :=
  { redirectUri := triggerAddress env,
    state := "nonce=" ++ env.nonce,
    scope := env.scopes,
    codeChallenge := env.pkceChallenge }

def triggerModel (fs : FlowState) (env : TriggerEnv) :
    FlowState × TriggerResult :=
  let server := fs.nextServer
  let fs1 : FlowState :=
    { fs with
        nextServer := server + 1,
        activeServers := fs.activeServers ++ [server] }
  let address := triggerAddress env
  let fs2 : FlowState :=
    { fs1 with opened := fs1.opened ++ [triggerAuthParams env] }
  if env.openExternalOk = false then
    (triggerCatch fs2 server, .rejected "openExternal failed")
  else
    match env.wait with
    | .gotCode c => (fs2, .ok { code := c, redirectUri := address })
    | .cancelled => (triggerCatch fs2 server, .rejected "Cancelled")
    | .timedOut => (triggerCatch fs2 server, .rejected "Code exchange timeout")

/- ### LoopbackServer — `src/common/loopback-server.ts` (the
implementation bundled after the separator in
`src/test/extension.e2e.test.ts`) -/

/-- What `this.server.address()` reports inside the `listen`
callback: null, a string (pipe / Unix domain socket), or an
`AddressInfo` with a port. -/
inductive ServerAddress
  | nullAddr
  | str (s : String)
  | info (port : Nat)
deriving DecidableEq, Repr

/-- The state of one `LoopbackServer`: the cached
`private listen?: Promise<number>` (promises identified by allocation
order), the `isDisposed` flag, the underlying `http.Server`'s
`listening` flag and reported address, and counters for the
`server.listen` and `server.close` calls. -/
structure ServerState where
  address : ServerAddress
  listen : Option Nat := none
  isDisposed : Bool := false
  listening : Bool := false
  nextPromise : Nat := 0
  listenCalls : Nat := 0
  closeCalls : Nat := 0
deriving DecidableEq, Repr

/-- What a call to `LoopbackServer.start()` returns: a thrown error
(the disposed guard) or a promise identity. -/
inductive StartResult
  | thrown (msg : String)
  | promise (p : Nat)
deriving DecidableEq, Repr

/-- `LoopbackServer.start()`: throw if already disposed; return the
cached promise if one exists; otherwise call `server.listen` once and
cache a fresh promise. -/
def startServer (st : ServerState) : ServerState × StartResult :=
  if st.isDisposed then
    (st, .thrown "Local server has already been disposed")
  else
    match st.listen with
    | some p => (st, .promise p)
    | none =>
      let p := st.nextPromise
      ({ st with
          listen := some p,
          nextPromise := p + 1,
          listenCalls := st.listenCalls + 1 },
        .promise p)

/-- How the cached start promise settles once the `listen` callback
fires: resolve with `address.port` when the reported address is an
`AddressInfo`, otherwise reject with `FAILED_TO_GET_PORT`. -/
inductive PromiseOutcome
  | resolved (port : Nat)
  | failed (msg : String)
deriving DecidableEq, Repr

def startPromiseOutcome (st : ServerState) : PromiseOutcome :=
  match st.address with
  | .info port => .resolved port
  | _ => .failed "Failed to acquire server port"

/-- `LoopbackServer.dispose()`: no-op when already disposed; set the
flag; close the underlying server only when it is listening. -/
def disposeServer (st : ServerState) : ServerState :=
  if st.isDisposed then st
  else
    let st1 := { st with isDisposed := true }
    if st.listening = false then st1
    else { st1 with closeCalls := st1.closeCalls + 1 }

/- ### ProxiedRedirectFlow URI handling — `src/auth/flows/proxied.ts` -/

/-- Modelled from the spec: the pending code-wait of one
`ProxiedRedirectFlow.trigger` call (`src/auth/flows/proxied.ts` is not
in the source tree; only its unit tests are).  The flow listens on the
host-wide URI-invocation bus, filters invocations to its own nonce,
and resolves once with a present, non-empty `code`.  The waiter is
single-shot: after resolution further deliveries are no-ops. -/
structure ProxiedWait where
  nonce : String
  resolvedCode : Option String := none
deriving DecidableEq, Repr

/-- Modelled from the spec: the proxied flow's handling of one inbound
host-URI invocation, given the invocation's query string.  Invocations
missing the nonce, with a foreign nonce, or with an absent or empty
`code` are silently ignored (the state is returned unchanged and
nothing is thrown — the function is total). -/
def proxiedHandleUri (w : ProxiedWait) (query : String) : ProxiedWait :=
  if w.resolvedCode.isSome then w
  else
    let pairs := parseQueryPairs query
    match queryGet pairs "nonce", queryGet pairs "code" with
    | some n, some c =>
      if n = w.nonce ∧ ¬ (c = "") then { w with resolvedCode := some c } else w
    | _, _ => w

/-- A query string is one the proxied flow ignores outright: no
`nonce` parameter, or no `code` parameter, or an empty `code`. -/
def proxiedMalformed (query : String) : Bool :=
  let pairs := parseQueryPairs query
  (queryGet pairs "nonce").isNone ∨ strFalsy (queryGet pairs "code")

/-- Fold a sequence of inbound URI invocations into the wait state. -/
def proxiedRun (w : ProxiedWait) (events : List String) : ProxiedWait :=
  events.foldl proxiedHandleUri w

/-- Modelled from the spec: the outcome of the proxied flow's
code-wait once the 60-second window closes — resolved with the code,
or rejected with the timeout. -/
inductive ProxiedOutcome
  | resolved (code : String)
  | timedOut
deriving DecidableEq, Repr

def proxiedOutcome (w : ProxiedWait) : ProxiedOutcome :=
  match w.resolvedCode with
  | some c => .resolved c
  | none => .timedOut

/- ### GoogleAuthProvider session persistence — `src/auth/provider.ts` -/

/-- `vscode.AuthenticationSession` as persisted under the
`google.sessions` key. -/
structure Session where
  id : String
  accessToken : String
  accountId : String
  accountLabel : String
  scopes : List String
deriving DecidableEq, Repr

/-- Modelled from the spec: the secret store as seen through the
sessions key (`src/auth/provider.ts` is not in the source tree; only
its unit tests are).  `value` is the parsed content of the stored JSON
blob (`none` when nothing is stored) and `storeCalls` counts
invocations of the secret store's `store` operation. -/
structure SecretStore where
  value : Option (List Session)
  storeCalls : Nat := 0
deriving DecidableEq, Repr

/-- The persisted list: absent or unreadable storage reads as the
empty list. -/
def sessionsOf (st : SecretStore) : List Session :=
  st.value.getD []

/-- Modelled from the spec: `getSessions(scopes?)` — read the
persisted list and filter by scope subset when scopes are given. -/
def getSessions (scopes : Option (List String)) (st : SecretStore) :
    List Session :=
  match scopes with
  | none => sessionsOf st
  | some sc => (sessionsOf st).filter (fun s => sc.all (fun x => x ∈ s.scopes))

/-- Modelled from the spec: `removeSession(id)` — filter the session
out of the persisted list; when the id is not found, perform no
storage write at all (the store state is returned untouched). -/
def removeSession (st : SecretStore) (id : String) : SecretStore :=
  let sessions := sessionsOf st
  let filtered := sessions.filter (fun s => ¬ (s.id = id))
  if filtered.length = sessions.length then st
  else { value := some filtered, storeCalls := st.storeCalls + 1 }

/- ### Shared helper lemmas -/

lemma hasActiveControl_set_logs (s : AsyncToggleState) (l : List LogEntry)
    (ctrl : Nat) :
    hasActiveControl { s with logs := l } ctrl = hasActiveControl s ctrl := rfl

lemma signalAborted_set_logs (s : AsyncToggleState) (l : List LogEntry)
    (ctrl : Nat) :
    signalAborted { s with logs := l } ctrl = signalAborted s ctrl := rfl

/- ### Theorems -/

/-- C1: if a transition in a given direction is already in flight, a
second `on()`/`off()` call in that same direction is a no-op — the
state (in particular the record of `turnOn`/`turnOff` invocations) is
unchanged and no new transition is started, so the abstract procedure
for that direction runs exactly once and the second call is neither
queued nor restarted. -/
theorem asyncToggle_same_direction_call_noop
    (s : AsyncToggleState) (c : Nat) (d : ToggleDirection)
    (h : s.inFlight = some (c, d)) :
    toggleStart s d = (s, none) ∧
    (toggleStart s d).1.invocations = s.invocations := by
  refine ⟨?_, ?_⟩ <;> simp [toggleStart, h]

/-- C1 witness: `on()` from the idle state, then `on()` again before
the first completes — the second call returns the state untouched and
the `turnOn` procedure was invoked exactly once. -/
theorem asyncToggle_same_direction_call_noop_witness :
    (toggleStart asyncToggleInit ToggleDirection.on).1.inFlight
        = some (0, ToggleDirection.on) ∧
    toggleStart (toggleStart asyncToggleInit ToggleDirection.on).1
        ToggleDirection.on
      = ((toggleStart asyncToggleInit ToggleDirection.on).1, none) ∧
    ((toggleStart (toggleStart asyncToggleInit ToggleDirection.on).1
        ToggleDirection.on).1.invocations.countP
          (fun p => p.1 == ToggleDirection.on)) = 1 := by
  refine ⟨by decide, ?_, by decide⟩
  exact (asyncToggle_same_direction_call_noop _ 0 ToggleDirection.on
    (by decide)).1

/-- C2: an opposite-direction call aborts the in-flight transition's
controller — its signal becomes aborted with a cause carrying the
"superseded" message — and in the same synchronous step, before the
old transition's completion ever runs, starts the new transition:
`turnOn`/`turnOff` for the new direction is invoked immediately and
the new controller becomes the in-flight one.  The last conjunct shows
independence from the old transition's cleanup: however the old
transition later completes, the new in-flight record is untouched. -/
theorem asyncToggle_opposite_call_aborts_and_supersedes
    (s : AsyncToggleState) (c : Nat) (d dir : ToggleDirection)
    (h : s.inFlight = some (c, d)) (hdir : d ≠ dir) (hc : c ≠ s.nextCtrl) :
    (toggleStart s dir).2 = some s.nextCtrl ∧
    (toggleStart s dir).1.aborts = s.aborts ++ [(c, ⟨d, dir⟩)] ∧
    signalAborted (toggleStart s dir).1 c = true ∧
    (ToggleAbortedError.mk d dir).message =
      "Toggling from " ++ dirStr d ++ " superseded by toggle to " ++ dirStr dir ∧
    (toggleStart s dir).1.invocations = s.invocations ++ [(dir, s.nextCtrl)] ∧
    (toggleStart s dir).1.inFlight = some (s.nextCtrl, dir) ∧
    ∀ o, (toggleFinish (toggleStart s dir).1 c d o).1.inFlight
        = some (s.nextCtrl, dir) := by
  have hne : ¬ (d = dir) := hdir
  refine ⟨?_, ?_, ?_, rfl, ?_, ?_, ?_⟩
  · simp [toggleStart, h, hne]
  · simp [toggleStart, h, hne]
  · simp [toggleStart, h, hne, signalAborted]
  · simp [toggleStart, h, hne]
  · simp [toggleStart, h, hne]
  · intro o
    have hstart : (toggleStart s dir).1.inFlight = some (s.nextCtrl, dir) := by
      simp [toggleStart, h, hne]
    have hns : ¬ (s.nextCtrl = c) := fun he => hc he.symm
    cases o with
    | success =>
      simp [toggleFinish, hasActiveControl, hstart, hns]
    | failure err =>
      by_cases hab : signalAborted (toggleStart s dir).1 c <;>
        simp [toggleFinish, hasActiveControl, hstart, hns, hab]

/-- C2 witness: `on()` from idle, then `off()` before it completes —
controller 0 is aborted with the superseded cause, `turnOff` is
invoked at once with fresh controller 1, and completing the old
transition afterwards (with an abort rejection) leaves the new
in-flight record in place. -/
theorem asyncToggle_opposite_call_aborts_and_supersedes_witness :
    ((toggleStart asyncToggleInit ToggleDirection.on).1.inFlight
        = some (0, ToggleDirection.on)) ∧
    ((toggleStart (toggleStart asyncToggleInit ToggleDirection.on).1
        ToggleDirection.off).2 = some 1 ∧
      signalAborted (toggleStart (toggleStart asyncToggleInit
        ToggleDirection.on).1 ToggleDirection.off).1 0 = true ∧
      (toggleStart (toggleStart asyncToggleInit ToggleDirection.on).1
        ToggleDirection.off).1.invocations
          = [(ToggleDirection.on, 0), (ToggleDirection.off, 1)] ∧
      ∀ o, (toggleFinish (toggleStart (toggleStart asyncToggleInit
            ToggleDirection.on).1 ToggleDirection.off).1 0 ToggleDirection.on
            o).1.inFlight = some (1, ToggleDirection.off)) := by
  have happ := asyncToggle_opposite_call_aborts_and_supersedes
    (toggleStart asyncToggleInit ToggleDirection.on).1 0
    ToggleDirection.on ToggleDirection.off (by decide) (by decide) (by decide)
  refine ⟨by decide, happ.1, happ.2.2.1, by decide, happ.2.2.2.2.2.2⟩

/-- C3: when a transition's `turnOn`/`turnOff` promise rejects, the
error is re-thrown to the caller exactly when the transition's abort
signal was not triggered; the single log line written is a trace-level
"Async toggle aborted." when the signal was triggered (the rejection
is swallowed), and an error-level "failed unexpectedly." line
otherwise. -/
theorem asyncToggle_failure_handling
    (s : AsyncToggleState) (ctrl : Nat) (dir : ToggleDirection)
    (err : String) :
    (toggleFinish s ctrl dir (.failure err)).2 = !(signalAborted s ctrl) ∧
    (toggleFinish s ctrl dir (.failure err)).1.logs =
      s.logs ++ [if signalAborted s ctrl
        then LogEntry.trace "Async toggle aborted." (some err)
        else LogEntry.error
          ("Async toggle to " ++ dirStr dir ++ " failed unexpectedly.")
          (some err)] := by
  by_cases hab : signalAborted s ctrl <;>
    by_cases hac : hasActiveControl s ctrl <;>
      simp [toggleFinish, hab, hasActiveControl_set_logs, hac]

/-- C10: the finally clause of `toggle` clears the in-flight record
exactly when the completing transition still holds active control —
so after an actively-controlled transition terminates (successfully or
by a non-abort rejection, either way), a subsequent `on()`/`off()`
call starts a fresh transition and invokes `turnOn`/`turnOff` again,
while a superseded transition's completion leaves the new in-flight
record in place. -/
theorem asyncToggle_never_wedges
    (s : AsyncToggleState) (ctrl : Nat) (dir : ToggleDirection)
    (o : TurnOutcome) :
    (toggleFinish s ctrl dir o).1.inFlight =
      (if hasActiveControl s ctrl then none else s.inFlight) ∧
    (hasActiveControl s ctrl = true → ∀ dir2,
      (toggleStart (toggleFinish s ctrl dir o).1 dir2).2
          = some (toggleFinish s ctrl dir o).1.nextCtrl ∧
      (toggleStart (toggleFinish s ctrl dir o).1 dir2).1.invocations
          = (toggleFinish s ctrl dir o).1.invocations
              ++ [(dir2, (toggleFinish s ctrl dir o).1.nextCtrl)]) := by
  have hfin : (toggleFinish s ctrl dir o).1.inFlight =
      (if hasActiveControl s ctrl then none else s.inFlight) := by
    cases o with
    | success =>
      by_cases hac : hasActiveControl s ctrl <;>
        simp [toggleFinish, hasActiveControl_set_logs, hac]
    | failure err =>
      by_cases hab : signalAborted s ctrl <;>
        by_cases hac : hasActiveControl s ctrl <;>
          simp [toggleFinish, hab, hasActiveControl_set_logs, hac]
  refine ⟨hfin, fun hac dir2 => ?_⟩
  have hnone : (toggleFinish s ctrl dir o).1.inFlight = none := by
    rw [hfin, hac, if_pos rfl]
  constructor <;> simp [toggleStart, hnone]

/-- C10 witness: the "turn off after failing to turn on" scenario —
`on()` from idle, `turnOn` rejects with a non-abort error (the error
is re-thrown and the error log written), and the subsequent `off()`
starts a fresh transition that invokes `turnOff`. -/
theorem asyncToggle_never_wedges_witness :
    (hasActiveControl (toggleStart asyncToggleInit ToggleDirection.on).1 0
        = true) ∧
    ((toggleFinish (toggleStart asyncToggleInit ToggleDirection.on).1 0
        ToggleDirection.on (.failure "boom")).2 = true) ∧
    ((toggleStart (toggleFinish (toggleStart asyncToggleInit
          ToggleDirection.on).1 0 ToggleDirection.on
          (.failure "boom")).1 ToggleDirection.off).2
        = some (toggleFinish (toggleStart asyncToggleInit
          ToggleDirection.on).1 0 ToggleDirection.on
          (.failure "boom")).1.nextCtrl) ∧
    ((toggleStart (toggleFinish (toggleStart asyncToggleInit
          ToggleDirection.on).1 0 ToggleDirection.on
          (.failure "boom")).1 ToggleDirection.off).1.invocations
        = [(ToggleDirection.on, 0), (ToggleDirection.off, 1)]) := by
  have happ := (asyncToggle_never_wedges
    (toggleStart asyncToggleInit ToggleDirection.on).1 0 ToggleDirection.on
    (.failure "boom")).2 (by decide) ToggleDirection.off
  refine ⟨by decide, by decide, happ.1, by decide⟩

/-- C4: a `trigger` invocation rejects when the external-open fails,
when the code-wait is cancelled, or when it times out (and the
code-wait can never resolve with a code when no code arrives within
the fixed 60-second `CODE_TIMEOUT_MS` window — last conjunct); in
every reject case the loopback server allocated for this attempt is
disposed and removed from the active set, while every server of an
earlier in-flight trigger stays active and undisposed. -/
theorem trigger_reject_disposes_own_server
    (fs : FlowState) (env : TriggerEnv)
    (hfresh : fs.nextServer ∉ fs.activeServers)
    (h : env.openExternalOk = false ∨ env.wait = WaitResult.cancelled ∨
      env.wait = WaitResult.timedOut) :
    (triggerModel fs env).2.isRejected = true ∧
    fs.nextServer ∈ (triggerModel fs env).1.disposed ∧
    fs.nextServer ∉ (triggerModel fs env).1.activeServers ∧
    (∀ s ∈ fs.activeServers, s ∈ (triggerModel fs env).1.activeServers) ∧
    (∀ s, s ∉ fs.disposed → s ≠ fs.nextServer →
      s ∉ (triggerModel fs env).1.disposed) ∧
    (∀ codeArrival cancelAt,
      (∀ t c, codeArrival = some (t, c) → CODE_TIMEOUT_MS ≤ t) →
      (waitForCodeOutcome codeArrival cancelAt).isCode = false) := by
  have hlate : ∀ (codeArrival : Option (Nat × String)) (cancelAt : Option Nat),
      (∀ t c, codeArrival = some (t, c) → CODE_TIMEOUT_MS ≤ t) →
      (waitForCodeOutcome codeArrival cancelAt).isCode = false := by
    intro codeArrival cancelAt hnone
    match codeArrival, cancelAt with
    | some (t, c), some tc =>
      have ht := hnone t c rfl
      have h1 : ¬ (t < tc ∧ t < CODE_TIMEOUT_MS) := by omega
      by_cases h2 : tc ≤ t ∧ tc < CODE_TIMEOUT_MS <;>
        simp [waitForCodeOutcome, h1, h2, WaitResult.isCode]
    | some (t, c), none =>
      have ht := hnone t c rfl
      have h1 : ¬ (t < CODE_TIMEOUT_MS) := by omega
      simp [waitForCodeOutcome, h1, WaitResult.isCode]
    | none, some tc =>
      by_cases h1 : tc < CODE_TIMEOUT_MS <;>
        simp [waitForCodeOutcome, h1, WaitResult.isCode]
    | none, none => simp [waitForCodeOutcome, WaitResult.isCode]
  have hcatch : (triggerModel fs env).1 =
      triggerCatch { fs with
        nextServer := fs.nextServer + 1,
        activeServers := fs.activeServers ++ [fs.nextServer],
        opened := fs.opened ++ [triggerAuthParams env] }
        fs.nextServer ∧
      (triggerModel fs env).2.isRejected = true := by
    rcases h with h | h | h
    · simp [triggerModel, h, TriggerResult.isRejected]
    · cases hoe : env.openExternalOk <;>
        simp [triggerModel, h, hoe, TriggerResult.isRejected]
    · cases hoe : env.openExternalOk <;>
        simp [triggerModel, h, hoe, TriggerResult.isRejected]
  refine ⟨hcatch.2, ?_, ?_, ?_, ?_, hlate⟩
  · rw [hcatch.1]; simp [triggerCatch]
  · rw [hcatch.1]; simp [triggerCatch]
  · intro s hs
    rw [hcatch.1]
    have hne : s ≠ fs.nextServer := fun he => hfresh (he ▸ hs)
    simp [triggerCatch, hs, hne]
  · intro s hsd hne
    rw [hcatch.1]
    simp [triggerCatch, hne]
    exact hsd

/-- C4 witness: a flow with one earlier in-flight server (id 0)
triggers again and the code-wait times out — the new server (id 1) is
disposed and dropped from the active set, server 0 stays active and
undisposed, and a code arriving only at the 60-second mark can no
longer win the wait. -/
theorem trigger_reject_disposes_own_server_witness :
    ((triggerModel { nextServer := 1, activeServers := [0] }
        { nonce := "nonce", scopes := ["foo"], pkceChallenge := "1 + 1 = ?",
          port := 1234, openExternalOk := true,
          wait := WaitResult.timedOut }).2.isRejected = true) ∧
    (1 ∈ (triggerModel { nextServer := 1, activeServers := [0] }
        { nonce := "nonce", scopes := ["foo"], pkceChallenge := "1 + 1 = ?",
          port := 1234, openExternalOk := true,
          wait := WaitResult.timedOut }).1.disposed) ∧
    (0 ∈ (triggerModel { nextServer := 1, activeServers := [0] }
        { nonce := "nonce", scopes := ["foo"], pkceChallenge := "1 + 1 = ?",
          port := 1234, openExternalOk := true,
          wait := WaitResult.timedOut }).1.activeServers) ∧
    (0 ∉ (triggerModel { nextServer := 1, activeServers := [0] }
        { nonce := "nonce", scopes := ["foo"], pkceChallenge := "1 + 1 = ?",
          port := 1234, openExternalOk := true,
          wait := WaitResult.timedOut }).1.disposed) ∧
    (waitForCodeOutcome (some (CODE_TIMEOUT_MS, "42")) none).isCode
        = false := by
  have happ := trigger_reject_disposes_own_server
    { nextServer := 1, activeServers := [0] }
    { nonce := "nonce", scopes := ["foo"], pkceChallenge := "1 + 1 = ?",
      port := 1234, openExternalOk := true, wait := WaitResult.timedOut }
    (by decide) (Or.inr (Or.inr rfl))
  refine ⟨happ.1, happ.2.1, ?_, ?_, ?_⟩
  · exact happ.2.2.2.1 0 (by decide)
  · exact happ.2.2.2.2.1 0 (by decide) (by decide)
  · exact happ.2.2.2.2.2 (some (CODE_TIMEOUT_MS, "42")) none
      (by intro t c he; cases he; exact le_refl _)

/-- A GET request to path `/` (with `url` and `Host` present) whose
query is missing the `state` parameter, whose state payload is missing
`nonce`, or which is missing the `code` parameter — the protocol-error
requests of the claim.  The JS falsiness of `URLSearchParams.get`
results makes "missing" cover both absent and empty parameters. -/
def ProtocolErrorRequest (req : HttpRequest) : Prop :=
  req.method = "GET" ∧ strFalsy req.url = false ∧
    strFalsy req.host = false ∧
    (let u := req.url.getD ""
     let split := splitAtFirst '?' u.data
     let query := parseQueryPairs (String.mk (split.2.getD []))
     String.mk split.1 = "/" ∧
      (strFalsy (queryGet query "state") = true ∨
        strFalsy (queryGet (parseQueryPairs
          ((queryGet query "state").getD "")) "nonce") = true ∨
        strFalsy (queryGet query "code") = true))

/-- The reading of the claim: every protocol-error request fails the
in-flight code-wait — a rejection reaches the code manager, to be
surfaced to the `trigger` caller. -/
def HandlerFailsWait (hr : HandlerResult) : Prop :=
  hr.rejectCalls ≠ []

def SpecClaimHandlerSurfacesProtocolErrors
    (apiDomain serveRoot extUri : String) : Prop :=
  ∀ req, ProtocolErrorRequest req →
    HandlerFailsWait (handleRequest apiDomain serveRoot extUri req)

/-- C5 counterexample: a GET to `/` with no query at all is a
protocol-error request, yet `handleRequest` performs no code-manager
call whatsoever — the in-flight code-wait is not failed, so nothing is
surfaced to the `trigger` caller (the error is merely thrown inside
the request handler). -/
theorem handler_protocol_error_not_surfaced_counterexample :
    ¬ SpecClaimHandlerSurfacesProtocolErrors
      "https://colab.research.google.com" "out/media"
      "vscode://google.colab/auth-success" := by
  intro hclaim
  have hpe : ProtocolErrorRequest
      { method := "GET", url := some "/", host := some "127.0.0.1:1234" } := by
    refine ⟨rfl, rfl, rfl, rfl, Or.inl rfl⟩
  have := hclaim _ hpe
  exact this rfl

/-- C5 amended: a GET to `/` missing `state`, missing `nonce` in the
state payload, or missing `code` makes `handleRequest` throw an error
inside the request handler (naming the missing piece); the handler
performs no code-manager interaction at all — the in-flight code-wait
is neither failed nor resolved, and no response is written — so the
`trigger` caller is not notified and later times out. -/
theorem handler_protocol_error_throws_inside_handler
    (apiDomain serveRoot extUri : String) (req : HttpRequest)
    (h : ProtocolErrorRequest req) :
    ((handleRequest apiDomain serveRoot extUri req).thrown
        = some "Missing state in redirect URL" ∨
      (handleRequest apiDomain serveRoot extUri req).thrown
        = some "Missing nonce or code in redirect URI") ∧
    (handleRequest apiDomain serveRoot extUri req).resolveCalls = [] ∧
    (handleRequest apiDomain serveRoot extUri req).rejectCalls = [] ∧
    (handleRequest apiDomain serveRoot extUri req).response = none := by
  obtain ⟨hm, hu, hh, hpath, herr⟩ := h
  have hmne : ¬ (req.method ≠ "GET") := by simp [hm]
  rcases herr with he | he | he
  · simp [handleRequest, hu, hh, hmne, hpath, he]
  · by_cases hst : strFalsy (queryGet (parseQueryPairs (String.mk
        ((splitAtFirst '?' (req.url.getD "").data).2.getD []))) "state")
        = true <;>
      simp [handleRequest, hu, hh, hmne, hpath, he, hst]
  · by_cases hst : strFalsy (queryGet (parseQueryPairs (String.mk
        ((splitAtFirst '?' (req.url.getD "").data).2.getD []))) "state")
        = true <;>
      simp [handleRequest, hu, hh, hmne, hpath, he, hst]

/-- C5 amended witness: the missing-`code` request from the unit tests
(`/?state=nonce%3Dnonce` with nonce "nonce") throws the
"Missing nonce or code" error inside the handler, with no
code-manager interaction and no response. -/
theorem handler_protocol_error_throws_inside_handler_witness :
    ProtocolErrorRequest
      { method := "GET", url := some "/?state=nonce%3Dnonce",
        host := some "127.0.0.1:1234" } ∧
    ((handleRequest "https://colab.research.google.com" "out/media"
        "vscode://google.colab/auth-success"
        { method := "GET", url := some "/?state=nonce%3Dnonce",
          host := some "127.0.0.1:1234" }).thrown
      = some "Missing nonce or code in redirect URI") ∧
    ((handleRequest "https://colab.research.google.com" "out/media"
        "vscode://google.colab/auth-success"
        { method := "GET", url := some "/?state=nonce%3Dnonce",
          host := some "127.0.0.1:1234" }).resolveCalls = []) := by
  have hpe : ProtocolErrorRequest
      { method := "GET", url := some "/?state=nonce%3Dnonce",
        host := some "127.0.0.1:1234" } := by
    refine ⟨rfl, rfl, rfl, by decide, Or.inr (Or.inr (by decide))⟩
  have happ := handler_protocol_error_throws_inside_handler
    "https://colab.research.google.com" "out/media"
    "vscode://google.colab/auth-success" _ hpe
  refine ⟨hpe, ?_, happ.2.1⟩
  rcases happ.1 with hth | hth
  · exact absurd hth (by decide)
  · exact hth

/-- The end-to-end callback request of the claim: a GET to
`/?state=nonce%3Dnonce&code=42` on the loopback address. -/
def c6Request (port : Nat) : HttpRequest :=
  { method := "GET",
    url := some "/?state=nonce%3Dnonce&code=42",
    host := some ("127.0.0.1:" ++ toString port) }

/-- The code-wait termination induced by the handler's `resolveCode`
call for the flow's nonce `"nonce"`: the wait resolves with the
resolved code, or times out if no resolution for that nonce ever
happens. -/
def c6Wait (apiDomain serveRoot extUri : String) (port : Nat) : WaitResult :=
  match (handleRequest apiDomain serveRoot extUri
      (c6Request port)).resolveCalls.find? (fun p => p.1 = "nonce") with
  | some p => WaitResult.gotCode p.2
  | none => WaitResult.timedOut

/-- The trigger environment of the end-to-end scenario: nonce
`"nonce"`, scopes `["foo"]`, an OS-chosen port, a successful external
open, and the code-wait fed by the handler. -/
def c6Env (apiDomain serveRoot extUri : String) (port : Nat) : TriggerEnv :=
  { nonce := "nonce", scopes := ["foo"], pkceChallenge := "1 + 1 = ?",
    port := port, openExternalOk := true,
    wait := c6Wait apiDomain serveRoot extUri port }

/-- C6: for the loopback flow triggered with nonce "nonce" and scopes
["foo"], after the server binds to an OS-chosen port, the GET to
`/?state=nonce%3Dnonce&code=42` makes the handler resolve the
code-wait with ("nonce", "42"), `trigger` resolves with exactly
code "42" and redirectUri `http://127.0.0.1:<port>` — the same
redirect URI carried by the authorization URL presented to the
identity provider — and the handler responds with a 302 whose
Location is `<apiDomain>/vscode/auth-success?state=<s>` with the
externally-resolved success URI URL-encoded in `state`. -/
theorem loopback_end_to_end_flow
    (apiDomain serveRoot extUri : String) (port : Nat) :
    (handleRequest apiDomain serveRoot extUri (c6Request port)).resolveCalls
        = [("nonce", "42")] ∧
    (handleRequest apiDomain serveRoot extUri (c6Request port)).response
        = some (LoopbackResponse.redirect
            (apiDomain ++ "/vscode/auth-success?state="
              ++ encodeURIComponent extUri)) ∧
    (triggerModel flowInit (c6Env apiDomain serveRoot extUri port)).2
        = TriggerResult.ok
            { code := "42",
              redirectUri := "http://127.0.0.1:" ++ toString port } ∧
    (triggerModel flowInit (c6Env apiDomain serveRoot extUri port)).1.opened
        = [triggerAuthParams (c6Env apiDomain serveRoot extUri port)] ∧
    (triggerAuthParams (c6Env apiDomain serveRoot extUri port)).redirectUri
        = "http://127.0.0.1:" ++ toString port ∧
    (triggerAuthParams (c6Env apiDomain serveRoot extUri port)).state
        = "nonce=nonce" := by
  have hh : ¬ ("127.0.0.1:" ++ toString port) = "" := by
    intro hcontra
    have := congrArg String.length hcontra
    simp [String.length_append] at this
    exact absurd this.1 (by decide)
  have hr_eq : handleRequest apiDomain serveRoot extUri (c6Request port)
      = { resolveCalls := [("nonce", "42")],
          response := some (.redirect (redirectLocation apiDomain extUri)) } := by
    simp [handleRequest, c6Request, strFalsy]
    rw [if_neg hh]
    rfl
  have hwait : c6Wait apiDomain serveRoot extUri port
      = WaitResult.gotCode "42" := by
    simp [c6Wait, hr_eq]
  refine ⟨by simp [hr_eq], by simp [hr_eq, redirectLocation], ?_, ?_, rfl, rfl⟩
  · simp [triggerModel, c6Env, hwait, flowInit, triggerAddress]
  · simp [triggerModel, c6Env, hwait, flowInit]

/-- C7: when the id is absent from the persisted session list,
`removeSession(id)` performs no storage write at all — the store state
(value and store-call count) is returned untouched, so the persisted
blob is byte-for-byte unchanged; and after any `removeSession(id)`, no
`getSessions` call (with or without a scope filter) ever returns a
session with that id. -/
theorem removeSession_frame_and_removal (st : SecretStore) (id : String) :
    ((sessionsOf st).all (fun s => ¬ (s.id = id)) = true →
      removeSession st id = st) ∧
    (∀ scopes s, s ∈ getSessions scopes (removeSession st id) →
      ¬ (s.id = id)) := by
  constructor
  · intro hall
    have hfix : (sessionsOf st).filter (fun s => ¬ (s.id = id))
        = sessionsOf st := by
      rw [List.filter_eq_self]
      intro a ha
      simp only [List.all_eq_true] at hall
      simpa using hall a ha
    simp only [removeSession]
    rw [hfix, if_pos rfl]
  · intro scopes s hs
    have hmem : s ∈ sessionsOf (removeSession st id) := by
      cases scopes with
      | none => simpa [getSessions] using hs
      | some sc =>
        simp only [getSessions] at hs
        exact List.mem_of_mem_filter hs
    by_cases hlen : ((sessionsOf st).filter
        (fun s => ¬ (s.id = id))).length = (sessionsOf st).length
    · have hrm : removeSession st id = st := by
        simp only [removeSession]
        rw [if_pos hlen]
      have hall := List.filter_length_eq_length.1 hlen
      rw [hrm] at hmem
      simpa using hall s hmem
    · have hrm : removeSession st id
          = { value := some ((sessionsOf st).filter
                (fun s => ¬ (s.id = id))),
              storeCalls := st.storeCalls + 1 } := by
        simp only [removeSession]
        rw [if_neg hlen]
      rw [hrm] at hmem
      have hmem' : s ∈ (sessionsOf st).filter (fun s => ¬ (s.id = id)) := by
        simpa [sessionsOf] using hmem
      have := List.of_mem_filter hmem'
      simpa using this

/-- The session stored in the provider's unit-test fixtures. -/
def defaultSession : Session :=
  { id := "1", accessToken := "123", accountId := "foo@example.com",
    accountLabel := "Foo Bar", scopes := ["email", "profile"] }

/-- C7 witness: removing an id that is not stored leaves the store
untouched, and after removing a stored id, `getSessions` no longer
returns it. -/
theorem removeSession_frame_and_removal_witness :
    (removeSession { value := some [defaultSession] } "does-not-exist"
      = { value := some [defaultSession] }) ∧
    (∀ s, s ∈ getSessions none
        (removeSession { value := some [defaultSession] } "1") →
      ¬ (s.id = "1")) := by
  constructor
  · exact (removeSession_frame_and_removal
      { value := some [defaultSession] } "does-not-exist").1 (by decide)
  · exact fun s =>
      (removeSession_frame_and_removal
        { value := some [defaultSession] } "1").2 none s

/-- C8: on a non-disposed server, a second `start()` call made while
the first is still pending returns the very same pending promise and
leaves the server state unchanged — so both calls resolve to the same
port (the settlement of that one shared promise) and the underlying
`listen` is not called again; from a not-yet-started server, the two
calls together invoke `listen` exactly once. -/
theorem loopbackServer_start_idempotent (st : ServerState)
    (hd : st.isDisposed = false) :
    (startServer (startServer st).1).2 = (startServer st).2 ∧
    (startServer (startServer st).1).1 = (startServer st).1 ∧
    (∃ p, (startServer st).2 = StartResult.promise p ∧
      (startServer (startServer st).1).2 = StartResult.promise p) ∧
    startPromiseOutcome (startServer (startServer st).1).1
      = startPromiseOutcome (startServer st).1 ∧
    (st.listen = none →
      (startServer (startServer st).1).1.listenCalls
        = st.listenCalls + 1) := by
  cases hsp : st.listen with
  | some p => simp [startServer, hd, hsp]
  | none => simp [startServer, hd, hsp, startPromiseOutcome]

/-- C8 witness: a fresh server whose bound address reports port 12345,
started twice — both calls return promise 0, the state after the
second call equals the state after the first, `listen` ran exactly
once, and the shared promise resolves to port 12345. -/
theorem loopbackServer_start_idempotent_witness :
    (startServer (startServer { address := .info 12345 }).1).2
        = (startServer ({ address := .info 12345 } : ServerState)).2 ∧
    (startServer ({ address := .info 12345 } : ServerState)).2
        = StartResult.promise 0 ∧
    (startServer (startServer { address := .info 12345 }).1).1.listenCalls
        = 1 ∧
    startPromiseOutcome
        (startServer (startServer { address := .info 12345 }).1).1
      = PromiseOutcome.resolved 12345 := by
  have happ := loopbackServer_start_idempotent { address := .info 12345 } rfl
  refine ⟨happ.1, by decide, ?_, by decide⟩
  have := happ.2.2.2.2 rfl
  simpa using this

/-- C9: an inbound host-URI invocation whose query is missing the
nonce or whose code parameter is absent or empty is silently ignored
by the proxied flow: the handler leaves any wait state unchanged (and,
being a total function, throws nothing), so inserting such an
invocation anywhere in an invocation sequence changes neither the
final wait state nor the eventual outcome — the pending code-wait
still resolves on a later well-formed invocation or times out. -/
theorem proxied_malformed_invocation_ignored (q : String)
    (h : proxiedMalformed q = true) :
    (∀ w, proxiedHandleUri w q = w) ∧
    (∀ w pre post, proxiedRun w (pre ++ q :: post)
        = proxiedRun w (pre ++ post)) ∧
    (∀ w pre post, proxiedOutcome (proxiedRun w (pre ++ q :: post))
        = proxiedOutcome (proxiedRun w (pre ++ post))) := by
  have hone : ∀ w, proxiedHandleUri w q = w := by
    intro w
    by_cases hres : w.resolvedCode.isSome
    · simp [proxiedHandleUri, hres]
    · simp only [proxiedMalformed, Bool.or_eq_true, decide_eq_true_eq] at h
      cases hn : queryGet (parseQueryPairs q) "nonce" with
      | none => simp [proxiedHandleUri, hres, hn]
      | some n =>
        cases hcode : queryGet (parseQueryPairs q) "code" with
        | none => simp [proxiedHandleUri, hres, hn, hcode]
        | some c =>
          have hc : c = "" := by
            rcases h with h | h
            · rw [hn] at h; exact absurd h (by simp)
            · rw [hcode] at h; simpa [strFalsy] using h
          simp [proxiedHandleUri, hres, hn, hcode, hc]
  have hrun : ∀ pre w post, proxiedRun w (pre ++ q :: post)
      = proxiedRun w (pre ++ post) := by
    intro pre
    induction pre with
    | nil => intro w post; simp [proxiedRun, hone w]
    | cons x xs ih =>
      intro w post
      simp only [List.cons_append, proxiedRun, List.foldl_cons]
      exact ih (proxiedHandleUri w x) post
  exact ⟨hone, fun w pre post => hrun pre w post,
    fun w pre post => by rw [hrun pre w post]⟩

/-- C9 witness: the test's malformed invocations — a query with no
parameters at all and one with an empty code — are ignored, and a
later well-formed invocation still resolves the wait with its code,
while a sequence of only malformed invocations leaves it to time
out. -/
theorem proxied_malformed_invocation_ignored_witness :
    proxiedMalformed "nonce=nonce&windowId=1&code=" = true ∧
    proxiedHandleUri { nonce := "nonce" } "nonce=nonce&windowId=1&code="
        = { nonce := "nonce" } ∧
    proxiedOutcome (proxiedRun { nonce := "nonce" }
        (["nonce=nonce&windowId=1&code="]
          ++ "nonce=nonce&windowId=1&code=42" :: []))
      = ProxiedOutcome.resolved "42" ∧
    proxiedOutcome (proxiedRun { nonce := "nonce" } ["", "code=42"])
      = ProxiedOutcome.timedOut := by
  refine ⟨by decide, ?_, by decide, by decide⟩
  exact (proxied_malformed_invocation_ignored "nonce=nonce&windowId=1&code="
    (by decide)).1 { nonce := "nonce" }

end ColabVSCode
